import Mathlib

/-
Verification of the video-to-audio converter library.

The development shallowly embeds the library's classes:
FileHandler (pure string/number formatting helpers), AudioExtractor,
TranscriptGenerator and VideoConverter.  Browser-host behaviour (media
loading, the audio-processing graph, the speech-recognition session) is
abstracted into explicit "run" descriptions passed to the embedded
operations; promise resolution is Except.ok, promise rejection is
Except.error.
-/

/-! ## FileHandler -/

/-- Characters the regular expression class [^/.] of FileHandler.getBaseName
accepts: anything except a dot or a slash. -/
def extChar (c : Char) : Bool := c ≠ '.' && c ≠ '/'

/-- FileHandler.getBaseName, that is fileName.replace(re, empty) for the
regular expression matching a final dot followed by a nonempty run of
characters other than dots and slashes.  When such a match exists it begins
at the last dot of the name, so the embedding inspects the reversed
character list: the maximal trailing run of extension characters, when
nonempty and followed (going leftwards) by a dot, is struck out together
with that dot. -/
def getBaseName (fileName : String) : String :=
  let rcs := fileName.data.reverse
  if (rcs.takeWhile extChar) ≠ [] ∧ (rcs.dropWhile extChar).head? = some ('.') then
    String.mk ((rcs.dropWhile extChar).tail.reverse)
  else fileName

/-- FileHandler.getFileExtension: the name is split on dots; with more than
one part the last part is returned lowercased, otherwise the empty string.
The last part of the split is exactly the suffix after the last dot, and a
dot exists exactly when the trailing dotless run does not cover the whole
name. -/
def getFileExtension (fileName : String) : String :=
  let rcs := fileName.data.reverse
  let p := rcs.takeWhile (fun c => c ≠ '.')
  if p.length = rcs.length then "" else String.mk ((p.map Char.toLower).reverse)

/-- Structurally recursive floor logarithm: for fuel ≥ n, b ≥ 2 and n ≥ 1
this is the floor of the base-b logarithm of n. -/
def logFloorAux (b : Nat) : Nat → Nat → Nat
  | 0, _ => 0
  | fuel+1, n => if n < b then 0 else logFloorAux b fuel (n / b) + 1

/-- The unit index Math.floor(Math.log(bytes) / Math.log(1024)) in
FileHandler.formatFileSize, with the real logarithms taken exactly. -/
def sizeIndex (bytes : Nat) : Nat := logFloorAux 1024 bytes bytes

/-- Rounding to hundredths, half up: for x = bytes / k ≥ 0 this is
Number(x.toFixed(2)) scaled by one hundred, kept in exact natural
arithmetic. -/
def hundredthsOf (bytes k : Nat) : Nat := (200 * bytes + k) / (2 * k)

/-- Printing of parseFloat(x.toFixed(2)) from a value scaled to hundredths:
the decimal point and trailing zeros of the two-decimal form are dropped
again by parseFloat, so at most two significant decimals remain. -/
def trimHundredths (n : Nat) : String :=
  let ip := n / 100
  let fr := n % 100
  if fr = 0 then toString ip
  else if fr % 10 = 0 then toString ip ++ (".") ++ toString (fr / 10)
  else if fr < 10 then toString ip ++ (".0") ++ toString fr
  else toString ip ++ (".") ++ toString fr

/-- The sizes array of FileHandler.formatFileSize. -/
def sizeUnits : List String := [("Bytes"), ("KB"), ("MB"), ("GB"), ("TB")]

/-- FileHandler.formatFileSize: zero is special-cased, otherwise the byte
count is scaled by the power of 1024 given by sizeIndex, rounded to two
decimals, trimmed, and suffixed with the matching unit (an out-of-range
index reads the JavaScript value undefined). -/
def formatFileSize (bytes : Nat) : String :=
  if bytes = 0 then ("0 Bytes")
  else
    trimHundredths (hundredthsOf bytes (1024 ^ sizeIndex bytes)) ++ (" ")
      ++ sizeUnits.getD (sizeIndex bytes) ("undefined")

/-- Two-digit zero padding, toString(n).padStart(2, zero digit). -/
def pad2 (n : Nat) : String := if n < 10 then ("0") ++ toString n else toString n

/-- FileHandler.formatDuration on whole non-negative second counts; on such
inputs Math.floor and the JavaScript % operator agree with natural division
and remainder. -/
def formatDuration (seconds : Nat) : String :=
  let hours := seconds / 3600
  let minutes := (seconds % 3600) / 60
  let secs := seconds % 60
  if hours > 0 then toString hours ++ (":") ++ pad2 minutes ++ (":") ++ pad2 secs
  else toString minutes ++ (":") ++ pad2 secs

/-! ## TranscriptGenerator

The Web Speech API host behaviour of one generateTranscript call is
abstracted as a RecRun: whether the audio element loads (its error event
fires otherwise), whether recognition.start() / audio.play() throws, the
onresult event batches delivered (each batch the new results from
event.resultIndex on), and how the session terminates (onerror with a host
error code, or a clean onend).  The promise is settled once, by whichever
terminator fires first, so a single terminator per run is faithful. -/

/-- One entry of an onresult event: the isFinal flag, the recognised text
and the confidence score of the best alternative. -/
structure RecSegment where
  isFinal : Bool
  transcript : String
  confidence : ℚ
  deriving DecidableEq

/-- How the recognition session terminates: a host error code via onerror,
or a clean onend. -/
inductive RecEnd where
  | recError (e : String)
  | ended
  deriving DecidableEq

/-- Host behaviour of one generateTranscript call. -/
structure RecRun where
  loadOk : Bool
  startErr : Option String
  events : List (List RecSegment)
  fin : RecEnd
  deriving DecidableEq

/-- TranscriptResult of types.ts. -/
structure TranscriptResult where
  text : String
  confidence : Option ℚ
  language : String
  success : Bool
  error : Option String
  deriving DecidableEq

/-- Observable side effects of one generateTranscript call: whether a
recognition session object was constructed and whether media playback was
started. -/
structure TGTrace where
  sessionConstructed : Bool
  playbackStarted : Bool
  deriving DecidableEq

/-- The finalized result segments a run delivers, in order: the onresult
handler keeps exactly the entries whose isFinal flag is set. -/
def finalsOf (run : RecRun) : List RecSegment :=
  run.events.flatten.filter (fun s => s.isFinal)

/-- The accumulated transcript text: each finalized segment appends its text
plus a newline to the accumulator. -/
def accumulateSegs : List RecSegment → String
  | [] => ""
  | seg :: rest => seg.transcript ++ ("\n") ++ accumulateSegs rest

/-- The transcript variable of generateTranscript at session end. -/
def accumulatedText (run : RecRun) : String := accumulateSegs (finalsOf run)

/-- The confidenceSum variable at session end. -/
def confSum (run : RecRun) : ℚ := ((finalsOf run).map (fun s => s.confidence)).sum

/-- The confidenceCount variable at session end. -/
def confCount (run : RecRun) : Nat := (finalsOf run).length

/-- The avgConfidence computation: confidenceCount > 0 selects the mean,
otherwise zero. -/
def avgConfidence (run : RecRun) : ℚ :=
  if 0 < confCount run then confSum run / (confCount run : ℚ) else 0

/-- The fixed guidance text returned on a host without speech recognition. -/
def unsupportedText : String := "⚠️ Speech recognition is not supported in this browser.\n\nTo generate transcripts, please use Google Chrome or another browser with Web Speech API support.\n\nAlternatively, you can use third-party transcription services with the downloaded audio file."

/-- The error field returned on a host without speech recognition. -/
def unsupportedErr : String := "Speech recognition not available"

/-- The text returned when the session ends with an error and no speech was
accumulated. -/
def failedText (e : String) : String :=
  ("⚠️ Transcription failed: ") ++ e ++ ("\n\nPlease ensure:\n- Your browser supports speech recognition\n- You have an internet connection\n- The video has clear audio\n\nYou can still use the downloaded audio file with other transcription services.")

/-- The advisory note appended to a partial transcript when the session ends
with an error. -/
def advisoryNote (e : String) : String :=
  ("\n\n[Note: Transcription may be incomplete due to: ") ++ e ++ ("]")

/-- The text returned when the session ends cleanly with no speech. -/
def noSpeechText : String := "⚠️ No speech detected in the video.\n\nPossible reasons:\n- The video has no audio\n- The audio quality is too low\n- The speech is in a different language\n\nYou can still use the downloaded audio file with other transcription services."

/-- The error field returned when the session ends cleanly with no speech. -/
def noSpeechErr : String := "No speech detected"

/-- The rejection message of the audio element's error listener. -/
def loadFailText : String := "Failed to load video for transcription"

/-- The rejection message when recognition.start() or audio.play() throws. -/
def startFailText (msg : String) : String :=
  ("Failed to start transcription: ") ++ msg

/-- TranscriptGenerator.generateTranscript.  The supported flag is the
isRecognitionAvailable capability probe taken in the constructor; the run
describes the host's behaviour.  A resolved promise is Except.ok, a
rejected one Except.error; the trace records whether a recognition session
was constructed and playback started. -/
def generateTranscript (supported : Bool) (run : RecRun) (language : String) :
    Except String TranscriptResult × TGTrace :=
  if !supported then
    (Except.ok { text := unsupportedText, confidence := none, language := language,
                 success := false, error := some unsupportedErr },
     { sessionConstructed := false, playbackStarted := false })
  else if !run.loadOk then
    (Except.error loadFailText, { sessionConstructed := true, playbackStarted := false })
  else
    match run.startErr with
    | some msg =>
        (Except.error (startFailText msg),
         { sessionConstructed := true, playbackStarted := false })
    | none =>
        match run.fin with
        | RecEnd.recError e =>
            if accumulatedText run = "" then
              (Except.ok { text := failedText e, confidence := none, language := language,
                           success := false, error := some e },
               { sessionConstructed := true, playbackStarted := true })
            else
              (Except.ok { text := accumulatedText run ++ advisoryNote e,
                           confidence := some (avgConfidence run), language := language,
                           success := true, error := some e },
               { sessionConstructed := true, playbackStarted := true })
        | RecEnd.ended =>
            if accumulatedText run = "" then
              (Except.ok { text := noSpeechText, confidence := none, language := language,
                           success := false, error := some noSpeechErr },
               { sessionConstructed := true, playbackStarted := true })
            else
              (Except.ok { text := accumulatedText run,
                           confidence := some (avgConfidence run), language := language,
                           success := true, error := none },
               { sessionConstructed := true, playbackStarted := true })

/-! ## AudioExtractor -/

/-- AudioFormat of types.ts. -/
inductive AudioFormat where
  | webm | mp3 | wav | ogg
  deriving DecidableEq

/-- The string spliced into the template literals for an AudioFormat. -/
def AudioFormat.tag : AudioFormat → String
  | webm => ("webm")
  | mp3 => ("mp3")
  | wav => ("wav")
  | ogg => ("ogg")

/-- A browser Blob: its bytes and its declared MIME type. -/
structure MBlob where
  data : List Nat
  type : String
  deriving DecidableEq

/-- AudioResult of types.ts. -/
structure AudioResult where
  audioBlob : MBlob
  audioUrl : String
  format : AudioFormat
  duration : ℚ
  deriving DecidableEq

/-- Host behaviour of one extractAudio call: the video error event fires
(load failure), the AudioContext constructor throws (before any graph is
held), a later graph/recorder/playback step throws (after the context was
assigned), or playback runs to the end delivering recorded chunks, an
object URL for the result blob and the video element's duration. -/
inductive ExtractRun where
  | loadError
  | ctorThrow (msg : String)
  | graphThrow (msg : String)
  | success (chunks : List MBlob) (url : String) (dur : ℚ)
  deriving DecidableEq

/-- Mutable state of an AudioExtractor instance plus the host: the held
audioContext reference (none models the null field) and the number of
audio-processing graphs currently open on the host. -/
structure AEState where
  audioContext : Option Unit
  openGraphs : Nat
  deriving DecidableEq

/-- Rejection message of the video element's error listener. -/
def loadVideoFailText : String := "Failed to load video file"

/-- Rejection message of the catch block around graph construction. -/
def extractFailText (msg : String) : String :=
  ("Failed to extract audio: ") ++ msg

/-- AudioExtractor.extractAudio.  Each branch mirrors one exit path of the
source: the error listener rejects without touching the context field; a
throwing AudioContext constructor leaves the field at its previous value,
which the catch block then closes when non-null; a throw after assignment
closes and nulls the freshly opened graph; the recorder's onstop handler
closes and nulls the graph, drops empty chunks, concatenates the rest into
a blob tagged audio/format and resolves. -/
def extractAudio (s : AEState) (run : ExtractRun) (format : AudioFormat) :
    Except String AudioResult × AEState :=
  match run with
  | ExtractRun.loadError => (Except.error loadVideoFailText, s)
  | ExtractRun.ctorThrow msg =>
      (Except.error (extractFailText msg),
       if s.audioContext.isSome then { audioContext := none, openGraphs := s.openGraphs - 1 }
       else s)
  | ExtractRun.graphThrow msg =>
      (Except.error (extractFailText msg),
       { audioContext := none, openGraphs := s.openGraphs + 1 - 1 })
  | ExtractRun.success chunks url dur =>
      let kept := chunks.filter (fun c => 0 < c.data.length)
      (Except.ok { audioBlob := { data := (kept.map (fun c => c.data)).flatten,
                                  type := ("audio/") ++ format.tag },
                   audioUrl := url, format := format, duration := dur },
       { audioContext := none, openGraphs := s.openGraphs + 1 - 1 })

/-- AudioExtractor.dispose: close and null the held context when present. -/
def dispose (s : AEState) : AEState :=
  if s.audioContext.isSome then { audioContext := none, openGraphs := s.openGraphs - 1 }
  else s

/-! ## VideoConverter -/

/-- A host File object: name, byte size and declared MIME type. -/
structure MFile where
  name : String
  size : Nat
  mimeType : String
  deriving DecidableEq

/-- FileHandler.isVideoFile: the declared MIME type starts with video/
(file.type.startsWith, expressed on the underlying character list). -/
def isVideoFile (f : MFile) : Bool := ("video/").data.isPrefixOf f.mimeType.data

/-- VideoMetadata of types.ts; the optional fields are filled by the host on
a successful metadata load. -/
structure VideoMetadata where
  fileName : String
  fileSize : Nat
  mimeType : String
  duration : ℚ
  width : Nat
  height : Nat
  deriving DecidableEq

/-- Host behaviour of one getVideoMetadata call. -/
structure MetaRun where
  ok : Bool
  duration : ℚ
  width : Nat
  height : Nat
  deriving DecidableEq

/-- Rejection message of getVideoMetadata's error listener. -/
def metadataFailText : String := "Failed to load video metadata"

/-- AudioExtractor.getVideoMetadata. -/
def getVideoMetadata (f : MFile) (m : MetaRun) : Except String VideoMetadata :=
  if m.ok then
    Except.ok { fileName := f.name, fileSize := f.size, mimeType := f.mimeType,
                duration := m.duration, width := m.width, height := m.height }
  else Except.error metadataFailText

/-- ConversionStatus of types.ts. -/
inductive ConversionStatus where
  | pending | processing | extractingAudio | generatingTranscript | completed | failed
  deriving DecidableEq

/-- ConversionConfig of types.ts. -/
structure ConversionConfig where
  outputFormat : AudioFormat
  audioBitrate : Option Nat
  enableTranscript : Bool
  transcriptLanguage : Option String
  deriving DecidableEq

/-- ConversionResult of types.ts; wall-clock processingTime is not modelled
and is fixed at zero. -/
structure ConversionResult where
  metadata : VideoMetadata
  audio : AudioResult
  transcript : Option TranscriptResult
  status : ConversionStatus
  processingTime : Nat
  deriving DecidableEq

/-- ConversionProgress of types.ts, as handed to the onProgress listener. -/
structure ConversionProgress where
  status : ConversionStatus
  percentage : Nat
  message : String
  deriving DecidableEq

/-- Host behaviour of one convert call: metadata load, extraction and the
recognition run, plus the capability probe result. -/
structure HostRun where
  meta : MetaRun
  extract : ExtractRun
  recSupported : Bool
  recRun : RecRun
  deriving DecidableEq

/-- Rejection message of convert's input validation. -/
def notVideoText : String := "File is not a video file"

/-- The language convert passes on: config.transcriptLanguage or the en-US
default; the JavaScript or-operator also replaces an empty string. -/
def langOf (config : ConversionConfig) : String :=
  match config.transcriptLanguage with
  | none => ("en-US")
  | some l => if l = "" then ("en-US") else l

/-- Progress message constants of convert. -/
def startingMsg : String := "Starting conversion..."

/-- Progress message before the metadata step. -/
def readingMsg : String := "Reading video metadata..."

/-- Progress message before the extraction step. -/
def extractingMsg : String := "Extracting audio from video..."

/-- Progress message before the transcript step. -/
def transcriptMsg : String := "Generating transcript..."

/-- Progress message at completion. -/
def completeMsg : String := "Conversion complete!"

/-- VideoConverter.convert.  Returns the settled promise, the list of
progress events handed to the onProgress listener in order, and the
extractor state after the call; the onComplete and onError listeners
receive exactly the ok value and the error the returned promise carries,
so they are not modelled separately.  Validation precedes the first
progress event and every host interaction. -/
def convert (s : AEState) (f : MFile) (config : ConversionConfig) (host : HostRun) :
    Except String ConversionResult × List ConversionProgress × AEState :=
  if !isVideoFile f then (Except.error notVideoText, [], s)
  else
    let p0 : ConversionProgress :=
      { status := ConversionStatus.processing, percentage := 0, message := startingMsg }
    let p1 : ConversionProgress :=
      { status := ConversionStatus.processing, percentage := 10, message := readingMsg }
    match getVideoMetadata f host.meta with
    | Except.error e => (Except.error e, [p0, p1], s)
    | Except.ok md =>
      let p2 : ConversionProgress :=
        { status := ConversionStatus.extractingAudio, percentage := 30, message := extractingMsg }
      let ex := extractAudio s host.extract config.outputFormat
      match ex.1 with
      | Except.error e => (Except.error e, [p0, p1, p2], ex.2)
      | Except.ok audio =>
        if config.enableTranscript then
          let p3 : ConversionProgress :=
            { status := ConversionStatus.generatingTranscript, percentage := 60,
              message := transcriptMsg }
          match (generateTranscript host.recSupported host.recRun (langOf config)).1 with
          | Except.error e => (Except.error e, [p0, p1, p2, p3], ex.2)
          | Except.ok t =>
            let p4 : ConversionProgress :=
              { status := ConversionStatus.completed, percentage := 100, message := completeMsg }
            (Except.ok { metadata := md, audio := audio, transcript := some t,
                         status := ConversionStatus.completed, processingTime := 0 },
             [p0, p1, p2, p3, p4], ex.2)
        else
          let p4 : ConversionProgress :=
            { status := ConversionStatus.completed, percentage := 100, message := completeMsg }
          (Except.ok { metadata := md, audio := audio, transcript := none,
                       status := ConversionStatus.completed, processingTime := 0 },
           [p0, p1, p2, p4], ex.2)

/-- Loop body of VideoConverter.convertMultiple: i is the zero-based index
and total the full file count used in the per-file progress message; a
rejected convert is caught, logged and skipped, so only successful results
are accumulated. -/
def convertMultipleAux (config : ConversionConfig) (total : Nat) :
    AEState → Nat → List (MFile × HostRun) →
      List ConversionResult × List ConversionProgress × AEState
  | s, _, [] => ([], [], s)
  | s, i, (f, host) :: rest =>
      let pm : ConversionProgress :=
        { status := ConversionStatus.processing, percentage := 0,
          message := ("Processing file ") ++ toString (i + 1) ++ (" of ") ++ toString total
            ++ (": ") ++ f.name }
      let c := convert s f config host
      let restR := convertMultipleAux config total c.2.2 (i + 1) rest
      (match c.1 with
       | Except.ok r => r :: restR.1
       | Except.error _ => restR.1,
       pm :: c.2.1 ++ restR.2.1, restR.2.2)

/-- VideoConverter.convertMultiple: the strictly sequential loop over the
files; its return type is total, so no exception reaches the caller. -/
def convertMultiple (s : AEState) (files : List (MFile × HostRun))
    (config : ConversionConfig) :
    List ConversionResult × List ConversionProgress × AEState :=
  convertMultipleAux config files.length s 0 files

/-! ## Concrete inputs used by witnesses and counterexamples -/

/-- A fresh extractor instance: null context, no open graph. -/
def cleanAE : AEState := { audioContext := none, openGraphs := 0 }

/-- A video input file. -/
def demoFile : MFile := { name := ("clip.mp4"), size := 5, mimeType := ("video/mp4") }

/-- A non-video input file. -/
def demoTextFile : MFile := { name := ("notes.txt"), size := 3, mimeType := ("text/plain") }

/-- The default-like configuration with transcripts enabled. -/
def demoCfg : ConversionConfig :=
  { outputFormat := AudioFormat.webm, audioBitrate := none,
    enableTranscript := true, transcriptLanguage := some ("en-US") }

/-- A metadata load that succeeds. -/
def demoMeta : MetaRun := { ok := true, duration := 5, width := 640, height := 360 }

/-- The metadata record demoMeta produces for demoFile. -/
def demoMetadata : VideoMetadata :=
  { fileName := ("clip.mp4"), fileSize := 5, mimeType := ("video/mp4"),
    duration := 5, width := 640, height := 360 }

/-- An extraction that succeeds with no recorded chunks. -/
def demoExtract : ExtractRun := ExtractRun.success [] ("blob:demo") 5

/-- The audio result demoExtract produces under the webm format. -/
def demoAudio : AudioResult :=
  { audioBlob := { data := [], type := ("audio/webm") },
    audioUrl := ("blob:demo"), format := AudioFormat.webm, duration := 5 }

/-- A recognition run whose audio element fails to load, so the transcript
promise rejects. -/
def demoRejectRec : RecRun :=
  { loadOk := false, startErr := none, events := [], fin := RecEnd.ended }

/-- A recognition run that ends cleanly having heard nothing. -/
def demoEmptyRec : RecRun :=
  { loadOk := true, startErr := none, events := [], fin := RecEnd.ended }

/-- One finalized segment. -/
def demoSeg : RecSegment := { isFinal := true, transcript := ("hello"), confidence := 1 }

/-- A recognition run that accumulates one finalized segment and then hits a
host error. -/
def demoErrRec : RecRun :=
  { loadOk := true, startErr := none, events := [[demoSeg]],
    fin := RecEnd.recError ("network") }

/-- Host behaviour where everything works but transcript loading rejects. -/
def demoRejectHost : HostRun :=
  { meta := demoMeta, extract := demoExtract, recSupported := true, recRun := demoRejectRec }

/-- Host behaviour where the recognition session resolves with the
no-speech failure result. -/
def demoResolveHost : HostRun :=
  { meta := demoMeta, extract := demoExtract, recSupported := true, recRun := demoEmptyRec }

/-- The failed transcript result of a clean empty recognition run. -/
def demoNoSpeech : TranscriptResult :=
  { text := noSpeechText, confidence := none, language := ("en-US"),
    success := false, error := some noSpeechErr }

/-- The batch used by the convertMultiple witness: the middle file is not a
video and its conversion rejects, the last file's transcript load rejects
and aborts its conversion. -/
def demoFiles : List (MFile × HostRun) :=
  [(demoFile, demoResolveHost), (demoTextFile, demoResolveHost), (demoFile, demoRejectHost)]

/-! ## Helper lemmas -/

/-- Accumulating at least one finalized segment yields nonempty text. -/
theorem accumulateSegs_ne_empty (a : RecSegment) (l : List RecSegment) :
    accumulateSegs (a :: l) ≠ "" := by
  intro h
  have hlen : (accumulateSegs (a :: l)).length = 0 := by rw [h]; rfl
  have hone : (("\n") : String).length = 1 := rfl
  rw [accumulateSegs, String.length_append, String.length_append] at hlen
  omega

/-- The transcript accumulator is empty exactly when no finalized segment
arrived. -/
theorem accumulatedText_empty_iff (run : RecRun) :
    accumulatedText run = "" ↔ finalsOf run = [] := by
  unfold accumulatedText
  cases h : finalsOf run with
  | nil => simp [accumulateSegs]
  | cons a l => simp [accumulateSegs_ne_empty a l]

/-- The settled value of extractAudio does not depend on the incoming
extractor state. -/
theorem extractAudio_fst_indep (s s' : AEState) (run : ExtractRun) (format : AudioFormat) :
    (extractAudio s run format).1 = (extractAudio s' run format).1 := by
  cases run <;> rfl

/-- From a state with no held context, every exit path of extractAudio
returns to exactly that state. -/
theorem extractAudio_snd_of_none (s : AEState) (run : ExtractRun) (format : AudioFormat)
    (h : s.audioContext = none) : (extractAudio s run format).2 = s := by
  obtain ⟨ac, og⟩ := s
  change ac = none at h
  subst h
  cases run <;> simp [extractAudio]

/-- From a state with no held context, convert returns that state on every
path. -/
theorem convert_snd_of_none (s : AEState) (f : MFile) (config : ConversionConfig)
    (host : HostRun) (h : s.audioContext = none) :
    (convert s f config host).2.2 = s := by
  cases hv : isVideoFile f with
  | false => simp [convert, hv]
  | true =>
    have hse := extractAudio_snd_of_none s host.extract config.outputFormat h
    rcases hm : getVideoMetadata f host.meta with e | md
    · simp [convert, hv, hm]
    · rcases hx : (extractAudio s host.extract config.outputFormat).1 with e | audio
      · simp [convert, hv, hm, hx, hse]
      · cases ht : config.enableTranscript with
        | false => simp [convert, hv, hm, hx, ht, hse]
        | true =>
          rcases hg : (generateTranscript host.recSupported host.recRun (langOf config)).1
            with e | t
          · simp [convert, hv, hm, hx, ht, hg, hse]
          · simp [convert, hv, hm, hx, ht, hg, hse]

/-! ## Claim theorems -/

/-- C8: formatFileSize formats byte counts on the binary-prefix scale with
two-decimal rounding, special-casing zero: formatFileSize 0 is the string
0 Bytes, formatFileSize 1536 is 1.5 KB, and formatFileSize 1048576 is
1 MB. -/
theorem formatFileSize_values :
    formatFileSize 0 = ("0 Bytes")
    ∧ formatFileSize 1536 = ("1.5 KB")
    ∧ formatFileSize 1048576 = ("1 MB") := by
  refine ⟨by decide, by decide, by decide⟩

/-- C9: formatDuration renders H:MM:SS with at least one full hour and M:SS
otherwise, zero-padding minutes and seconds to two digits: formatDuration
65 is 1:05 and formatDuration 3661 is 1:01:01. -/
theorem formatDuration_values :
    formatDuration 65 = ("1:05") ∧ formatDuration 3661 = ("1:01:01") := by
  refine ⟨by decide, by decide⟩

/-- C5: on a host without the speech-recognition capability,
generateTranscript resolves (never rejects) with success false, the given
language and the fixed guidance message, for every recognition-run
behaviour, and its trace shows that no recognition session was constructed
and no playback started. -/
theorem generateTranscript_unsupported (run : RecRun) (language : String) :
    generateTranscript false run language
      = (Except.ok { text := unsupportedText, confidence := none, language := language,
                     success := false, error := some unsupportedErr },
         { sessionConstructed := false, playbackStarted := false }) := rfl

/-- C10: a recognition run that ends cleanly (onend, no host error) with
zero finalized speech segments resolves with success false and the
no-speech error, never as an empty successful transcript. -/
theorem generateTranscript_no_speech (run : RecRun) (language : String)
    (hl : run.loadOk = true) (hs : run.startErr = none) (hf : run.fin = RecEnd.ended)
    (hn : finalsOf run = []) :
    (generateTranscript true run language).1
      = Except.ok { text := noSpeechText, confidence := none, language := language,
                    success := false, error := some noSpeechErr } := by
  have hemp : accumulatedText run = "" := (accumulatedText_empty_iff run).mpr hn
  simp [generateTranscript, hl, hs, hf, hemp]

/-- Witness for C10 at the concrete empty recognition run. -/
theorem generateTranscript_no_speech_witness :
    (generateTranscript true demoEmptyRec ("en-US")).1
      = Except.ok { text := noSpeechText, confidence := none, language := ("en-US"),
                    success := false, error := some noSpeechErr } :=
  generateTranscript_no_speech demoEmptyRec ("en-US") rfl rfl rfl rfl

/-- C6: a recognition run that ends in a host error resolves successfully
with the accumulated text plus an advisory note and the mean confidence of
the finalized segments when at least one such segment was accumulated, and
resolves with success false carrying the error when no speech was
accumulated. -/
theorem generateTranscript_host_error_cases (run : RecRun) (language e : String)
    (hl : run.loadOk = true) (hs : run.startErr = none) (hf : run.fin = RecEnd.recError e) :
    (finalsOf run ≠ [] →
      (generateTranscript true run language).1
        = Except.ok { text := accumulatedText run ++ advisoryNote e,
                      confidence := some (confSum run / (confCount run : ℚ)),
                      language := language, success := true, error := some e })
    ∧ (finalsOf run = [] →
      (generateTranscript true run language).1
        = Except.ok { text := failedText e, confidence := none, language := language,
                      success := false, error := some e }) := by
  constructor
  · intro hne
    have hemp : ¬ accumulatedText run = "" :=
      fun hh => hne ((accumulatedText_empty_iff run).mp hh)
    have hcnt : 0 < confCount run := by
      unfold confCount
      cases hfl : finalsOf run with
      | nil => exact absurd hfl hne
      | cons a l => simp
    simp [generateTranscript, hl, hs, hf, hemp, avgConfidence, hcnt]
  · intro hnil
    have hemp : accumulatedText run = "" := (accumulatedText_empty_iff run).mpr hnil
    simp [generateTranscript, hl, hs, hf, hemp]

/-- Witness for C6 at a run with one finalized segment followed by a host
error. -/
theorem generateTranscript_host_error_cases_witness :
    (generateTranscript true demoErrRec ("en-US")).1
      = Except.ok { text := accumulatedText demoErrRec ++ advisoryNote ("network"),
                    confidence := some (confSum demoErrRec / (confCount demoErrRec : ℚ)),
                    language := ("en-US"), success := true, error := some ("network") } :=
  (generateTranscript_host_error_cases demoErrRec ("en-US") ("network") rfl rfl rfl).1
    (by decide)

/-- C2: for a file whose declared MIME type is not a video type, convert
rejects with the invalid-input error, emits no progress event at all, and
leaves the extractor state untouched; since the conclusion holds for every
host behaviour, no metadata retrieval, audio extraction or transcript
generation can have been performed. -/
theorem convert_nonvideo_rejects_early (s : AEState) (f : MFile)
    (config : ConversionConfig) (host : HostRun) (h : isVideoFile f = false) :
    convert s f config host = (Except.error notVideoText, [], s) := by
  simp [convert, h]

/-- Witness for C2 at a text file. -/
theorem convert_nonvideo_rejects_early_witness :
    convert cleanAE demoTextFile demoCfg demoRejectHost
      = (Except.error notVideoText, [], cleanAE) :=
  convert_nonvideo_rejects_early cleanAE demoTextFile demoCfg demoRejectHost rfl

/-- C4: starting from a state with no held audio-processing graph, every
exit path of extractAudio (successful resolution, graph-construction
failure of either kind, resource-load failure) ends with the audioContext
reference null and with as many open host graphs as before, so no
extraction completes with a graph still held; and dispose, from any state,
nulls the reference and closes the held graph when one was held. -/
theorem extractAudio_dispose_release_graph (s s' : AEState) (run : ExtractRun)
    (format : AudioFormat) (h : s.audioContext = none) :
    ((extractAudio s run format).2.audioContext = none
      ∧ (extractAudio s run format).2.openGraphs = s.openGraphs)
    ∧ ((dispose s').audioContext = none
      ∧ (dispose s').openGraphs
          = s'.openGraphs - (if s'.audioContext.isSome then 1 else 0)) := by
  refine ⟨?_, ?_⟩
  · rw [extractAudio_snd_of_none s run format h]
    exact ⟨h, rfl⟩
  · cases hac : s'.audioContext <;> simp [dispose, hac]

/-- Witness for C4: a clean extractor hitting a load failure, and disposal
of an extractor holding one open graph. -/
theorem extractAudio_dispose_release_graph_witness :
    ((extractAudio cleanAE ExtractRun.loadError AudioFormat.webm).2.audioContext = none
      ∧ (extractAudio cleanAE ExtractRun.loadError AudioFormat.webm).2.openGraphs
          = cleanAE.openGraphs)
    ∧ ((dispose { audioContext := some (), openGraphs := 1 }).audioContext = none
      ∧ (dispose { audioContext := some (), openGraphs := 1 }).openGraphs
          = ({ audioContext := some (), openGraphs := 1 } : AEState).openGraphs
              - (if ({ audioContext := some (), openGraphs := 1 } : AEState).audioContext.isSome
                 then 1 else 0)) :=
  extractAudio_dispose_release_graph cleanAE { audioContext := some (), openGraphs := 1 }
    ExtractRun.loadError AudioFormat.webm rfl

/-- C1 counterexample: with metadata retrieval and audio extraction both
succeeding and enableTranscript set, a transcript step that fails by
rejecting (here: the audio element for transcription fails to load) aborts
the whole conversion, so convert does not resolve with status completed as
the claim requires of every transcript failure. -/
theorem convert_transcript_reject_aborts :
    getVideoMetadata demoFile demoRejectHost.meta = Except.ok demoMetadata
    ∧ (extractAudio cleanAE demoRejectHost.extract demoCfg.outputFormat).1
        = Except.ok demoAudio
    ∧ demoCfg.enableTranscript = true
    ∧ (convert cleanAE demoFile demoCfg demoRejectHost).1 = Except.error loadFailText := by
  refine ⟨rfl, rfl, rfl, rfl⟩

/-- C1 (amended): when metadata retrieval and audio extraction succeed,
enableTranscript is true, and the transcript step fails by resolving with a
failure result (success flag false) rather than by rejecting, convert still
resolves with status completed and carries that failed transcript
sub-result. -/
theorem convert_transcript_resolved_failure_completes
    (s : AEState) (f : MFile) (config : ConversionConfig) (host : HostRun)
    (t : TranscriptResult) (a : AudioResult)
    (hv : isVideoFile f = true)
    (hm : host.meta.ok = true)
    (hx : (extractAudio s host.extract config.outputFormat).1 = Except.ok a)
    (ht : config.enableTranscript = true)
    (hg : (generateTranscript host.recSupported host.recRun (langOf config)).1
        = Except.ok t)
    (hfail : t.success = false) :
    ∃ r, (convert s f config host).1 = Except.ok r
      ∧ r.status = ConversionStatus.completed ∧ r.transcript = some t
      ∧ t.success = false := by
  refine ⟨{ metadata := { fileName := f.name, fileSize := f.size, mimeType := f.mimeType,
                          duration := host.meta.duration, width := host.meta.width,
                          height := host.meta.height },
            audio := a, transcript := some t,
            status := ConversionStatus.completed, processingTime := 0 }, ?_, rfl, rfl, hfail⟩
  simp [convert, hv, getVideoMetadata, hm, hx, ht, hg]

/-- Witness for amended C1: the empty clean recognition run resolves with
the no-speech failure result and the conversion still completes. -/
theorem convert_transcript_resolved_failure_completes_witness :
    ∃ r, (convert cleanAE demoFile demoCfg demoResolveHost).1 = Except.ok r
      ∧ r.status = ConversionStatus.completed ∧ r.transcript = some demoNoSpeech
      ∧ demoNoSpeech.success = false :=
  convert_transcript_resolved_failure_completes cleanAE demoFile demoCfg demoResolveHost
    demoNoSpeech demoAudio rfl rfl rfl rfl rfl rfl

/-- Auxiliary induction for C3: from a clean extractor state the loop body
keeps exactly the successfully converted files, in order. -/
theorem convertMultipleAux_results (config : ConversionConfig) (total : Nat) (s : AEState)
    (h : s.audioContext = none) (i : Nat) (files : List (MFile × HostRun)) :
    (convertMultipleAux config total s i files).1
      = files.filterMap (fun fh => ((convert s fh.1 config fh.2).1).toOption) := by
  induction files generalizing i with
  | nil => rfl
  | cons fh rest ih =>
      obtain ⟨f, host⟩ := fh
      have hst : (convert s f config host).2.2 = s := convert_snd_of_none s f config host h
      have hunf : (convertMultipleAux config total s i ((f, host) :: rest)).1
          = match (convert s f config host).1 with
            | Except.ok r =>
                r :: (convertMultipleAux config total (convert s f config host).2.2
                        (i + 1) rest).1
            | Except.error _ =>
                (convertMultipleAux config total (convert s f config host).2.2
                    (i + 1) rest).1 := rfl
      rw [hunf, hst, ih, List.filterMap_cons]
      cases hc : (convert s f config host).1 with
      | ok r => simp [Except.toOption, hc]
      | error e => simp [Except.toOption, hc]

/-- C3: convertMultiple is total (no exception reaches the caller: a failed
single-file conversion is caught inside the loop) and its returned
collection is exactly the list of results of the successfully converted
files, in their original relative order, failed files omitted. -/
theorem convertMultiple_keeps_successes (s : AEState) (files : List (MFile × HostRun))
    (config : ConversionConfig) (h : s.audioContext = none) :
    (convertMultiple s files config).1
      = files.filterMap (fun fh => ((convert s fh.1 config fh.2).1).toOption) :=
  convertMultipleAux_results config files.length s h 0 files

/-- Witness for C3 on a three-file batch whose middle file is rejected as a
non-video and whose last file aborts in the transcript step. -/
theorem convertMultiple_keeps_successes_witness :
    (convertMultiple cleanAE demoFiles demoCfg).1
      = demoFiles.filterMap (fun fh => ((convert cleanAE fh.1 demoCfg fh.2).1).toOption) :=
  convertMultiple_keeps_successes cleanAE demoFiles demoCfg rfl

/-- The head of what dropWhile leaves is an element of the original list. -/
theorem dropWhile_head_mem {p : Char → Bool} {l : List Char} {c : Char}
    (h : (l.dropWhile p).head? = some c) : c ∈ l := by
  have hmem : c ∈ l.dropWhile p := List.mem_of_mem_head? (by rw [h]; rfl)
  exact (List.dropWhile_sublist p).subset hmem

/-- When the strip condition of getBaseName fails, the name is returned
unchanged. -/
theorem getBaseName_eq_self (x : String)
    (h : ¬ ((x.data.reverse.takeWhile extChar) ≠ []
          ∧ (x.data.reverse.dropWhile extChar).head? = some ('.'))) :
    getBaseName x = x := by
  simp only [getBaseName]
  rw [if_neg h]

/-- C7 counterexample: the re-extension equation of the claim fails for the
extension strings b.c and the empty string: getBaseName of a is a, yet
re-extending with b.c strips only the final c, and re-extending with the
empty string strips nothing. -/
theorem getBaseName_reextension_counterexample :
    getBaseName (getBaseName ("a") ++ (".") ++ ("b.c")) ≠ getBaseName ("a")
    ∧ getBaseName (getBaseName ("a") ++ (".") ++ ("")) ≠ getBaseName ("a") := by
  refine ⟨by decide, by decide⟩

/-- Appending a dot and a nonempty slash-free dot-free extension to any
string is undone by getBaseName. -/
theorem getBaseName_append_ext (b ext : String) (hne : ext.data ≠ [])
    (hchars : ∀ c ∈ ext.data, extChar c = true) :
    getBaseName (b ++ (".") ++ ext) = b := by
  have hdot : ((".") : String).data = ['.'] := rfl
  have hrev : (b ++ (".") ++ ext).data.reverse
      = ext.data.reverse ++ '.' :: b.data.reverse := by
    rw [String.data_append, String.data_append, hdot]
    simp [List.reverse_append]
  have hextR : ∀ c ∈ ext.data.reverse, extChar c = true :=
    fun c hc => hchars c (List.mem_reverse.mp hc)
  have htwxs : ext.data.reverse.takeWhile extChar = ext.data.reverse :=
    List.takeWhile_eq_self_iff.mpr hextR
  have hdwxs : ext.data.reverse.dropWhile extChar = [] :=
    List.dropWhile_eq_nil_iff.mpr hextR
  have htw : (ext.data.reverse ++ '.' :: b.data.reverse).takeWhile extChar
      = ext.data.reverse := by
    rw [List.takeWhile_append, htwxs]
    simp [List.takeWhile_cons, extChar]
  have hdw : (ext.data.reverse ++ '.' :: b.data.reverse).dropWhile extChar
      = '.' :: b.data.reverse := by
    rw [List.dropWhile_append, hdwxs]
    simp [List.dropWhile_cons, extChar]
  have hcond : ((b ++ (".") ++ ext).data.reverse.takeWhile extChar) ≠ []
      ∧ ((b ++ (".") ++ ext).data.reverse.dropWhile extChar).head? = some ('.') := by
    rw [hrev, htw, hdw]
    exact ⟨by simpa using hne, rfl⟩
  simp only [getBaseName]
  rw [if_pos hcond, hrev, hdw]
  simp

/-- C7 (amended): getBaseName is unchanged on names the code assigns no
extension to, and re-extending with a dot and a nonempty extension string
free of dots and slashes is undone: getBaseName (getBaseName x ++ dot ++
ext) = getBaseName x.  (The unrestricted claim fails for extension strings
that are empty or contain a dot or slash.) -/
theorem getBaseName_idempotent_amended (x ext : String) :
    (getFileExtension x = "" → getBaseName x = x)
    ∧ (ext.data ≠ [] → (∀ c ∈ ext.data, extChar c = true) →
        getBaseName (getBaseName x ++ (".") ++ ext) = getBaseName x) := by
  constructor
  · intro h
    simp only [getFileExtension] at h
    by_cases hlen : ((x.data.reverse.takeWhile (fun c => c ≠ '.')).length
        = x.data.reverse.length)
    · have heq : x.data.reverse.takeWhile (fun c => decide (c ≠ '.')) = x.data.reverse :=
        (List.takeWhile_prefix _).eq_of_length hlen
      have hall := List.takeWhile_eq_self_iff.mp heq
      apply getBaseName_eq_self
      rintro ⟨-, h2⟩
      have hin : ('.' : Char) ∈ x.data.reverse := dropWhile_head_mem h2
      have := hall _ hin
      simp at this
    · rw [if_neg hlen] at h
      have hdata := congrArg String.data h
      simp only [] at hdata
      have hp : x.data.reverse.takeWhile (fun c => decide (c ≠ '.')) = [] := by
        have := congrArg List.reverse hdata
        simpa using this
      apply getBaseName_eq_self
      cases hx : x.data.reverse with
      | nil => rintro ⟨-, h2⟩; simp at h2
      | cons c t =>
          rw [hx, List.takeWhile_cons] at hp
          by_cases hc : c = '.'
          · rintro ⟨h1, -⟩
            rw [List.takeWhile_cons] at h1
            simp [extChar, hc] at h1
          · simp [hc] at hp
  · intro hne hchars
    exact getBaseName_append_ext (getBaseName x) ext hne hchars

/-- Witness for amended C7 at a dotless name and the extension tar. -/
theorem getBaseName_idempotent_amended_witness :
    getBaseName ("archive") = ("archive")
    ∧ getBaseName (getBaseName ("archive") ++ (".") ++ ("tar")) = getBaseName ("archive") :=
  ⟨(getBaseName_idempotent_amended ("archive") ("tar")).1 (by decide),
   (getBaseName_idempotent_amended ("archive") ("tar")).2 (by decide) (by decide)⟩
